import Mathlib

/-!
Verification of the resolution-and-caching pipeline of a music inline bot
(src/main.py).  The Python program is shallowly embedded: JSON song
records become a structure with optional fields (an absent key is none,
and a raising subscript access is an Except-valued lookup), the global
slug-to-token dictionary and its persisted JSON file become a TokenStore
value threaded through the functions, the TTL query cache becomes a
timestamped association list, and every network endpoint (catalog
search, catalog pagination, media download, thumbnail download, the
platform audio upload) becomes a field of a Network oracle.  Each
network call performed by a run is recorded in an event trace so that
claims about the number of calls can be stated.  A raised Python
exception is an Except.error value.
-/

/-- A member of the authors list of a song record; the name key may be
absent, in which case the subscript access in the source raises. -/
structure Author where
  name : Option String
deriving DecidableEq

/-- The album object of a song record. -/
structure Album where
  slug : Option String
deriving DecidableEq

/-- A song record as returned by the catalog API.  Every field the
source reads is optional: a raising access (square brackets in Python)
demands presence, a defaulted access (dict.get) tolerates absence. -/
structure SongData where
  slug : Option String
  file : Option String
  length : Option Nat
  authors : Option (List Author)
  name : Option String
  album : Option Album
  image_cropped : Option String
deriving DecidableEq

/-- The argument record of one send_audio platform upload call. -/
structure SendAudioReq where
  chat_id : String
  audio : Nat
  audioName : String
  duration : Nat
  performer : String
  title : String
  caption : String
  thumbnail : Option Nat
deriving DecidableEq

/-- One page of the paginated catalog listing endpoint. -/
structure PageResp where
  results : List SongData
  next : Option String
deriving DecidableEq

/-- The network oracle: the response each external endpoint would give.
For the three fetch endpoints, none models a non-success HTTP status.
For sendAudio, none models the platform call raising an exception (some
fid is a message whose audio carries that file identifier). -/
structure Network where
  search : String → Nat → Option (List SongData)
  media : String → Option Nat
  thumb : String → Option Nat
  sendAudio : SendAudioReq → Option String
  page : String → Option PageResp

/-- One recorded network call. -/
inductive NetEvent where
  | searchCall (q : String) (pageSize : Nat)
  | mediaCall (url : String)
  | thumbCall (url : String)
  | uploadCall
  | pageCall (url : String)
deriving DecidableEq

/-- A raising Python subscript access d[k]: ok when the key is present,
a KeyError otherwise. -/
def getKey {α : Type} (o : Option α) (k : String) : Except String α :=
  match o with
  | some v => Except.ok v
  | none => Except.error ("KeyError: " ++ k)

/-- Lookup in a Python dict modelled as an insertion-ordered association
list with unique keys. -/
def dictLookup (d : List (String × String)) (k : String) : Option String :=
  match d with
  | [] => none
  | (k', v) :: rest => if k' = k then some v else dictLookup rest k

/-- Membership test of a Python dict (the in operator). -/
def dictContains (d : List (String × String)) (k : String) : Bool :=
  (dictLookup d k).isSome

/-- Assignment d[k] = v on a Python dict: replace the value in place
when the key exists, append otherwise. -/
def dictSet (d : List (String × String)) (k v : String) : List (String × String) :=
  match d with
  | [] => [(k, v)]
  | (k', v') :: rest => if k' = k then (k, v) :: rest else (k', v') :: dictSet rest k v

/-- The persisted file_ids.json file: absent, unparseable, or a JSON
object whose key/value pairs are listed in serialization order. -/
inductive FileContent where
  | missing
  | corrupt
  | valid (entries : List (String × String))
deriving DecidableEq

/-- The token store: the in-memory file_id_storage dict plus the state
of the persisted file_ids.json file. -/
structure TokenStore where
  storage : List (String × String)
  file : FileContent
deriving DecidableEq

/-- json.load on a serialized object: rebuild a dict from the listed
key/value pairs in order (a duplicated key would keep the last value,
as in Python). -/
def jsonLoadObj (entries : List (String × String)) : List (String × String) :=
  List.foldl (fun acc p => dictSet acc p.1 p.2) [] entries

/-- store_file_id (src/main.py lines 25-28): write the pair into the
global dict and rewrite the whole file with json.dump. -/
def store_file_id (st : TokenStore) (slug fid : String) : TokenStore :=
  let storage' := dictSet st.storage slug fid
  { storage := storage', file := FileContent.valid storage' }

/-- load_file_ids (src/main.py lines 31-36): read and parse the file;
only FileNotFoundError is caught (giving an empty dict), so an
unparseable file raises json.JSONDecodeError. -/
def load_file_ids (fc : FileContent) : Except String (List (String × String)) :=
  match fc with
  | FileContent.missing => Except.ok []
  | FileContent.corrupt => Except.error "json.decoder.JSONDecodeError"
  | FileContent.valid entries => Except.ok (jsonLoadObj entries)

/-- An inline result as built at src/main.py lines 158-162 (the id, the
cached-audio file identifier, and the caption). -/
structure InlineResult where
  id : String
  audio_file_id : String
  caption : String
deriving DecidableEq

/-- The TTL query cache, ordered from least to most recently used; each
entry carries its insertion time. -/
abbrev QueryCache := List (String × Nat × List InlineResult)

/-- TTL of the query cache (TTLCache ttl=600). -/
def cacheTtlVal : Nat := 600

/-- Capacity of the query cache (TTLCache maxsize=100). -/
def cacheMaxsize : Nat := 100

/-- Drop the entries whose TTL has elapsed at the given time. -/
def cacheExpireOld (now : Nat) (qc : QueryCache) : QueryCache :=
  qc.filter (fun e => decide (now < e.2.1 + cacheTtlVal))

/-- Find a key's insertion time and value. -/
def cacheFind (qc : QueryCache) (k : String) : Option (Nat × List InlineResult) :=
  match qc with
  | [] => none
  | (k', t, v) :: rest => if k' = k then some (t, v) else cacheFind rest k

/-- Remove a key's entry. -/
def cacheRemove (qc : QueryCache) (k : String) : QueryCache :=
  qc.filter (fun e => decide (e.1 ≠ k))

/-- The combined containment test and read of src/main.py lines 149-150:
a live entry is returned and moved to the most-recently-used position. -/
def cacheGetitem (now : Nat) (qc : QueryCache) (k : String) :
    Option (List InlineResult × QueryCache) :=
  let live := cacheExpireOld now qc
  match cacheFind live k with
  | some (t, v) => some (v, cacheRemove live k ++ [(k, t, v)])
  | none => none

/-- The entries a write keeps besides the written one: expired entries
and the key's own entry go away, then the least-recently-used entries
are evicted while the cache is at capacity. -/
def cacheEvicted (now : Nat) (qc : QueryCache) (k : String) : QueryCache :=
  let live := cacheRemove (cacheExpireOld now qc) k
  if cacheMaxsize ≤ live.length
    then live.drop (live.length + 1 - cacheMaxsize) else live

/-- The write query_cache[query] = results: expire, replace the key,
evict from the least-recently-used end while over capacity, insert. -/
def cacheSet (now : Nat) (qc : QueryCache) (k : String) (v : List InlineResult) :
    QueryCache :=
  cacheEvicted now qc k ++ [(k, now, v)]

/-- Python str.strip with no argument: remove leading and trailing
whitespace characters. -/
def isSpaceChar (c : Char) : Bool :=
  c = ' ' || c = '\t' || c = '\n' || c = '\r' || c = '\x0b' || c = '\x0c'

/-- The query normalization update.inline_query.query.strip() of
src/main.py line 146. -/
def pyStrip (s : String) : String :=
  String.mk (((s.data.dropWhile isSpaceChar).reverse.dropWhile isSpaceChar).reverse)

/-- The catalog API base URL of src/main.py line 21. -/
def apiBaseUrl : String := "https://new.akarpov.ru/api/v1/music/song/"

/-- fetch_songs_from_api (src/main.py lines 48-57): one search call with
page_size 5; a non-success status yields an empty results object. -/
def fetch_songs_from_api (net : Network) (query : String) :
    List SongData × List NetEvent :=
  match net.search query 5 with
  | some results => (results, [NetEvent.searchCall query 5])
  | none => ([], [NetEvent.searchCall query 5])

/-- download_thumbnail (src/main.py lines 60-75): one GET of the
thumbnail URL; none on a non-success status. -/
def download_thumbnail (net : Network) (url : String) :
    Option Nat × List NetEvent :=
  (net.thumb url, [NetEvent.thumbCall url])

/-- The list comprehension of author names at src/main.py line 94; each
subscript access may raise. -/
def namesOfAuthors : List Author → Except String (List String)
  | [] => Except.ok []
  | a :: rest =>
    match getKey a.name "name" with
    | Except.error e => Except.error e
    | Except.ok n =>
      match namesOfAuthors rest with
      | Except.error e => Except.error e
      | Except.ok ns => Except.ok (n :: ns)

/-- The performer string of src/main.py line 94: the author names of the
record (defaulting to an empty list) joined with a comma. -/
def joinAuthors (authors : Option (List Author)) : Except String String :=
  match namesOfAuthors (authors.getD []) with
  | Except.error e => Except.error e
  | Except.ok ns => Except.ok (String.intercalate ", " ns)

/-- get_telegram_file_id (src/main.py lines 78-142): return the stored
token when the slug is present; otherwise extract the metadata, download
the media (returning none on failure), optionally download the
thumbnail, upload through send_audio, record the new token in the dict
and the file, and return it.  The result carries the possibly-updated
store and the trace of network calls. -/
def get_telegram_file_id (net : Network) (song : SongData) (st : TokenStore) :
    Except String (Option String × TokenStore × List NetEvent) :=
  match getKey song.slug "slug" with
  | Except.error e => Except.error e
  | Except.ok slug =>
    match dictLookup st.storage slug with
    | some fid => Except.ok (some fid, st, [])
    | none =>
      match getKey song.file "file" with
      | Except.error e => Except.error e
      | Except.ok file_url =>
        match joinAuthors song.authors with
        | Except.error e => Except.error e
        | Except.ok performer =>
          match net.media file_url with
          | some file_content =>
            match song.image_cropped with
            | some u =>
              match net.sendAudio
                  { chat_id := "868474142", audio := file_content,
                    audioName := slug ++ ".mp3",
                    duration := song.length.getD 0,
                    performer := performer,
                    title := song.name.getD "Unknown Title",
                    caption := "https://next.akarpov.ru/music/albums/"
                      ++ (match song.album with
                          | some a => a.slug.getD ""
                          | none => "") ++ "#" ++ slug,
                    thumbnail := (download_thumbnail net u).1 } with
              | some fid =>
                Except.ok (some fid,
                  { storage := dictSet st.storage slug fid,
                    file := FileContent.valid (dictSet st.storage slug fid) },
                  NetEvent.mediaCall file_url
                    :: ((download_thumbnail net u).2 ++ [NetEvent.uploadCall]))
              | none => Except.error "send_audio raised"
            | none =>
              match net.sendAudio
                  { chat_id := "868474142", audio := file_content,
                    audioName := slug ++ ".mp3",
                    duration := song.length.getD 0,
                    performer := performer,
                    title := song.name.getD "Unknown Title",
                    caption := "https://next.akarpov.ru/music/albums/"
                      ++ (match song.album with
                          | some a => a.slug.getD ""
                          | none => "") ++ "#" ++ slug,
                    thumbnail := none } with
              | some fid =>
                Except.ok (some fid,
                  { storage := dictSet st.storage slug fid,
                    file := FileContent.valid (dictSet st.storage slug fid) },
                  NetEvent.mediaCall file_url :: ([] ++ [NetEvent.uploadCall]))
              | none => Except.error "send_audio raised"
          | none => Except.ok (none, st, [NetEvent.mediaCall file_url])

/-- The for-loop body of inline_query (src/main.py lines 154-163):
resolve each song in order, and append an inline result (built with
raising accesses to slug and album slug) for each song that yielded a
token. -/
def inlineQueryLoop (net : Network) (songs : List SongData) (st : TokenStore) :
    Except String (List InlineResult × TokenStore × List NetEvent) :=
  match songs with
  | [] => Except.ok ([], st, [])
  | song :: rest =>
    match get_telegram_file_id net song st with
    | Except.error e => Except.error e
    | Except.ok (fidOpt, st1, ev1) =>
      match fidOpt with
      | some fid =>
        match getKey song.slug "slug" with
        | Except.error e => Except.error e
        | Except.ok slug =>
          match getKey song.album "album" with
          | Except.error e => Except.error e
          | Except.ok album =>
            match getKey album.slug "slug" with
            | Except.error e => Except.error e
            | Except.ok albumSlug =>
              let r : InlineResult :=
                { id := slug, audio_file_id := fid,
                  caption := "https://next.akarpov.ru/music/albums/"
                    ++ albumSlug ++ "#" ++ slug }
              match inlineQueryLoop net rest st1 with
              | Except.error e => Except.error e
              | Except.ok (rs, st2, ev2) =>
                Except.ok (r :: rs, st2, ev1 ++ ev2)
      | none =>
        match inlineQueryLoop net rest st1 with
        | Except.error e => Except.error e
        | Except.ok (rs, st2, ev2) => Except.ok (rs, st2, ev1 ++ ev2)

/-- inline_query (src/main.py lines 145-167): strip the query, answer
from the cache on a hit, otherwise search the catalog, resolve song by
song, store the assembled list in the cache and answer with it. -/
def inline_query (net : Network) (now : Nat) (rawQuery : String)
    (st : TokenStore) (qc : QueryCache) :
    Except String (List InlineResult × TokenStore × QueryCache × List NetEvent) :=
  let query := pyStrip rawQuery
  match cacheGetitem now qc query with
  | some (results, qc') => Except.ok (results, st, qc', [])
  | none =>
    match inlineQueryLoop net (fetch_songs_from_api net query).1 st with
    | Except.error e => Except.error e
    | Except.ok (results, st', ev1) =>
      Except.ok (results, st', cacheSet now qc query results,
        (fetch_songs_from_api net query).2 ++ ev1)

/-- The pagination loop of fetch_all_songs_from_api (src/main.py lines
176-185), with explicit fuel bounding the number of pages followed (the
source iterates until the next field is null; every claim concerns a
finite chain, reached with enough fuel). -/
def fetchAllPages (net : Network) : Nat → Option String → List SongData × List NetEvent
  | _, none => ([], [])
  | 0, some _ => ([], [])
  | Nat.succ fuel, some url =>
    match net.page url with
    | some resp =>
      let rest := fetchAllPages net fuel resp.next
      (resp.results ++ rest.1, NetEvent.pageCall url :: rest.2)
    | none => ([], [NetEvent.pageCall url])

/-- fetch_all_songs_from_api (src/main.py lines 170-187): drain the
catalog listing starting from the page_size=1000 URL. -/
def fetch_all_songs_from_api (net : Network) (fuel : Nat) :
    List SongData × List NetEvent :=
  fetchAllPages net fuel (some (apiBaseUrl ++ "?page_size=1000"))

/-- The for-loop of upload_songs (src/main.py lines 198-209): skip a
song whose slug is already stored; otherwise resolve it and, on
success, store the token again through store_file_id. -/
def uploadSongsLoop (net : Network) (songs : List SongData) (st : TokenStore) :
    Except String (TokenStore × List NetEvent) :=
  match songs with
  | [] => Except.ok (st, [])
  | song :: rest =>
    match getKey song.slug "slug" with
    | Except.error e => Except.error e
    | Except.ok slug =>
      if dictContains st.storage slug then uploadSongsLoop net rest st
      else
        match get_telegram_file_id net song st with
        | Except.error e => Except.error e
        | Except.ok (fidOpt, st1, ev1) =>
          match fidOpt with
          | some fid =>
            match uploadSongsLoop net rest (store_file_id st1 slug fid) with
            | Except.error e => Except.error e
            | Except.ok (st3, ev2) => Except.ok (st3, ev1 ++ ev2)
          | none =>
            match uploadSongsLoop net rest st1 with
            | Except.error e => Except.error e
            | Except.ok (st3, ev2) => Except.ok (st3, ev1 ++ ev2)

/-- upload_songs (src/main.py lines 190-209): fetch the full listing,
return immediately when it is empty, otherwise run the loop.  The
Python function always returns None; the Option Nat component records
that returned value. -/
def upload_songs (net : Network) (fuel : Nat) (st : TokenStore) :
    Except String (Option Nat × TokenStore × List NetEvent) :=
  if (fetch_all_songs_from_api net fuel).1.isEmpty then
    Except.ok (none, st, (fetch_all_songs_from_api net fuel).2)
  else
    match uploadSongsLoop net (fetch_all_songs_from_api net fuel).1 st with
    | Except.error e => Except.error e
    | Except.ok (st', ev1) =>
      Except.ok (none, st', (fetch_all_songs_from_api net fuel).2 ++ ev1)

/-- The slug of a song record (defaulted read, for stating claims). -/
def songSlug (s : SongData) : String := s.slug.getD ""

/-- The media URL of a song record (defaulted read, for stating claims). -/
def songFileUrl (s : SongData) : String := s.file.getD ""

/-- The album slug as the resolver reads it (chained dict.get with
defaults, src/main.py line 96). -/
def albumSlugOf (s : SongData) : String :=
  match s.album with
  | some a => a.slug.getD ""
  | none => ""

/-- The caption string built for a song (src/main.py lines 97 and 161). -/
def captionOf (s : SongData) : String :=
  "https://next.akarpov.ru/music/albums/" ++ albumSlugOf s ++ "#" ++ songSlug s

/-- The performer string of a song with all authors named. -/
def buildPerformer (s : SongData) : String :=
  String.intercalate ", " ((s.authors.getD []).map (fun a => a.name.getD ""))

/-- The thumbnail events a fresh resolution of the song produces. -/
def thumbEvOf (s : SongData) : List NetEvent :=
  match s.image_cropped with
  | some u => [NetEvent.thumbCall u]
  | none => []

/-- The send_audio request a fresh resolution of a well-formed song
builds, given the downloaded media bytes. -/
def reqOf (net : Network) (s : SongData) (b : Nat) : SendAudioReq :=
  { chat_id := "868474142", audio := b, audioName := songSlug s ++ ".mp3",
    duration := s.length.getD 0, performer := buildPerformer s,
    title := s.name.getD "Unknown Title", caption := captionOf s,
    thumbnail := match s.image_cropped with
      | some u => net.thumb u
      | none => none }

/-- A song record carrying every key the inline path reads with a
raising access: slug, file, an album with a slug, and a name on each
author. -/
def wellFormedSong (s : SongData) : Bool :=
  s.slug.isSome && s.file.isSome
    && (match s.album with
        | some a => a.slug.isSome
        | none => false)
    && (s.authors.getD []).all (fun a => a.name.isSome)

/-- Modelled from the spec (section 4.2): the token one resolution
yields, described statelessly against a fixed store — the stored token
on a hit, otherwise the token the platform issues for the uploaded
media, and none when the media download fails. -/
def specResolve (net : Network) (st : TokenStore) (s : SongData) : Option String :=
  match dictLookup st.storage (songSlug s) with
  | some fid => some fid
  | none =>
    match net.media (songFileUrl s) with
    | none => none
    | some b => net.sendAudio (reqOf net s b)

/-- Modelled from the spec (section 4.5): the ordered result list of a
query, keeping the songs that resolve in catalog order and dropping the
ones that do not. -/
def specAssemble (net : Network) (st : TokenStore) (songs : List SongData) :
    List InlineResult :=
  songs.filterMap (fun s => (specResolve net st s).map (fun fid =>
    { id := songSlug s, audio_file_id := fid, caption := captionOf s }))

/-- Test for a media download event. -/
def isMediaCall : NetEvent → Bool
  | NetEvent.mediaCall _ => true
  | _ => false

/-- Test for a platform upload event. -/
def isUploadCall : NetEvent → Bool
  | NetEvent.uploadCall => true
  | _ => false

/-- Number of media download calls in a trace. -/
def countMediaCalls (evs : List NetEvent) : Nat := (evs.filter isMediaCall).length

/-- Number of platform upload calls in a trace. -/
def countUploadCalls (evs : List NetEvent) : Nat := (evs.filter isUploadCall).length

/-- The result list an inline run answered with, when it returned. -/
def runResults
    (r : Except String (List InlineResult × TokenStore × QueryCache × List NetEvent)) :
    Option (List InlineResult) :=
  match r with
  | Except.ok t => some t.1
  | Except.error _ => none

/-- The token store an inline run finished with, when it returned. -/
def runStore
    (r : Except String (List InlineResult × TokenStore × QueryCache × List NetEvent)) :
    Option TokenStore :=
  match r with
  | Except.ok t => some t.2.1
  | Except.error _ => none

/-- The query cache an inline run finished with, when it returned. -/
def runCacheState
    (r : Except String (List InlineResult × TokenStore × QueryCache × List NetEvent)) :
    Option QueryCache :=
  match r with
  | Except.ok t => some t.2.2.1
  | Except.error _ => none

/-- The network trace of an inline run, when it returned. -/
def runEvents
    (r : Except String (List InlineResult × TokenStore × QueryCache × List NetEvent)) :
    Option (List NetEvent) :=
  match r with
  | Except.ok t => some t.2.2.2
  | Except.error _ => none

/-- The value a bulk ingestion run returned, when it returned. -/
def uploadValue (r : Except String (Option Nat × TokenStore × List NetEvent)) :
    Option (Option Nat) :=
  match r with
  | Except.ok t => some t.1
  | Except.error _ => none

/-- Number of media download calls a bulk ingestion run performed. -/
def uploadMediaCount (r : Except String (Option Nat × TokenStore × List NetEvent)) :
    Option Nat :=
  match r with
  | Except.ok t => some (countMediaCalls t.2.2)
  | Except.error _ => none

/-- Number of platform upload calls a bulk ingestion run performed. -/
def uploadUploadCount (r : Except String (Option Nat × TokenStore × List NetEvent)) :
    Option Nat :=
  match r with
  | Except.ok t => some (countUploadCalls t.2.2)
  | Except.error _ => none

/-- A sequence of store_file_id calls applied in order. -/
def runPuts (st : TokenStore) (ps : List (String × String)) : TokenStore :=
  List.foldl (fun s p => store_file_id s p.1 p.2) st ps

/-- A store with no entries and no persisted file yet. -/
def emptyStore : TokenStore := { storage := [], file := FileContent.missing }

/-- A concrete well-formed song record. -/
def songA : SongData :=
  { slug := some "a", file := some "http://x/a.mp3", length := some 9,
    authors := some [{ name := some "Art" }], name := some "Blue",
    album := some { slug := some "al1" }, image_cropped := none }

/-- A malformed song record: the slug key is absent. -/
def badSong : SongData :=
  { slug := none, file := some "http://x/b.mp3", length := none,
    authors := none, name := none, album := none, image_cropped := none }

/-- A concrete network on which every endpoint succeeds: the search
finds songA, its media downloads, uploads are acknowledged, and the
listing has a single page holding songA. -/
def cNetA : Network :=
  { search := fun _ _ => some [songA],
    media := fun u => if u = "http://x/a.mp3" then some 7 else none,
    thumb := fun _ => none,
    sendAudio := fun r => some (if r.audio = 7 then "tokA" else "tokZ"),
    page := fun u => if u = apiBaseUrl ++ "?page_size=1000"
      then some { results := [songA], next := none } else none }

/-- A concrete network whose media endpoint always answers with a
non-success status. -/
def cNetFail : Network :=
  { search := fun _ _ => some [songA],
    media := fun _ => none,
    thumb := fun _ => none,
    sendAudio := fun _ => some "tokF",
    page := fun _ => none }

/-- A concrete network whose catalog search answers with a non-success
status. -/
def cNetNone : Network :=
  { search := fun _ _ => none,
    media := fun _ => none,
    thumb := fun _ => none,
    sendAudio := fun _ => some "tokN",
    page := fun _ => none }

/-- A concrete network whose catalog search returns the malformed
record. -/
def cNetBad : Network :=
  { search := fun _ _ => some [badSong],
    media := fun _ => none,
    thumb := fun _ => none,
    sendAudio := fun _ => some "tokB",
    page := fun _ => none }

/-- A store already holding one token, under the slug z. -/
def stZ : TokenStore :=
  { storage := [("z", "t0")], file := FileContent.valid [("z", "t0")] }

/-- The inline result the concrete network cNetA produces for songA. -/
def resA : InlineResult :=
  { id := "a", audio_file_id := "tokA",
    caption := "https://next.akarpov.ru/music/albums/al1#a" }

/-- The store after resolving songA on cNetA from the empty store. -/
def stA : TokenStore :=
  { storage := [("a", "tokA")], file := FileContent.valid [("a", "tokA")] }

/-- The store after resolving songA on cNetA from stZ. -/
def stZA : TokenStore :=
  { storage := [("z", "t0"), ("a", "tokA")],
    file := FileContent.valid [("z", "t0"), ("a", "tokA")] }

theorem getKey_ok {α : Type} (o : Option α) (k : String) (v : α) :
    getKey o k = Except.ok v ↔ o = some v := by
  cases o <;> simp [getKey]

theorem dictLookup_dictSet (d : List (String × String)) (k v j : String) :
    dictLookup (dictSet d k v) j = if k = j then some v else dictLookup d j := by
  induction d with
  | nil => simp [dictSet, dictLookup]
  | cons p rest ih =>
    obtain ⟨a, b⟩ := p
    by_cases hak : a = k
    · subst hak
      by_cases haj : a = j
      · subst haj; simp [dictSet, dictLookup]
      · simp [dictSet, dictLookup, haj, fun h : a = j => haj h]
    · by_cases haj : a = j
      · subst haj
        have hkj : ¬ (k = a) := fun h => hak h.symm
        simp [dictSet, dictLookup, hak, hkj]
      · simp [dictSet, dictLookup, hak, haj, ih]

theorem dictLookup_eq_none (d : List (String × String)) (k : String) :
    dictLookup d k = none ↔ k ∉ d.map Prod.fst := by
  induction d with
  | nil => simp [dictLookup]
  | cons p rest ih =>
    obtain ⟨a, b⟩ := p
    by_cases hak : a = k
    · subst hak; simp [dictLookup]
    · have hka : ¬ k = a := fun h => hak h.symm
      constructor
      · intro h hmem
        have hmem' : k ∈ a :: List.map Prod.fst rest := by
          rw [List.map_cons] at hmem; exact hmem
        rcases List.mem_cons.mp hmem' with h1 | h1
        · exact hka h1
        · exact (ih.mp (by simpa [dictLookup, hak] using h)) h1
      · intro h
        have hrest : k ∉ List.map Prod.fst rest := by
          intro hm
          exact h (by rw [List.map_cons]; exact List.mem_cons.mpr (Or.inr hm))
        simpa [dictLookup, hak] using ih.mpr hrest

theorem dictSet_self (d : List (String × String)) (k v : String)
    (h : dictLookup d k = some v) : dictSet d k v = d := by
  induction d with
  | nil => simp [dictLookup] at h
  | cons p rest ih =>
    obtain ⟨a, b⟩ := p
    by_cases hak : a = k
    · subst hak
      simp [dictLookup] at h
      simp [dictSet, h]
    · simp [dictLookup, hak] at h
      simp [dictSet, hak, ih h]

theorem keys_dictSet_present (d : List (String × String)) (k v w : String)
    (h : dictLookup d k = some w) :
    (dictSet d k v).map Prod.fst = d.map Prod.fst := by
  induction d with
  | nil => simp [dictLookup] at h
  | cons p rest ih =>
    obtain ⟨a, b⟩ := p
    by_cases hak : a = k
    · subst hak; simp [dictSet]
    · simp [dictLookup, hak] at h
      simp [dictSet, hak, ih h]

theorem dictSet_append (d : List (String × String)) (k v : String)
    (h : dictLookup d k = none) : dictSet d k v = d ++ [(k, v)] := by
  induction d with
  | nil => simp [dictSet]
  | cons p rest ih =>
    obtain ⟨a, b⟩ := p
    by_cases hak : a = k
    · subst hak; simp [dictLookup] at h
    · simp [dictLookup, hak] at h
      simp [dictSet, hak, ih h]

theorem nodup_dictSet (d : List (String × String)) (k v : String)
    (h : (d.map Prod.fst).Nodup) : ((dictSet d k v).map Prod.fst).Nodup := by
  cases hl : dictLookup d k with
  | some w => rw [keys_dictSet_present d k v w hl]; exact h
  | none =>
    rw [dictSet_append d k v hl]
    have hk : k ∉ d.map Prod.fst := (dictLookup_eq_none d k).mp hl
    simp [List.nodup_append, h, hk]

theorem dictLookup_append_right (a b : List (String × String)) (k : String)
    (h : dictLookup a k = none) : dictLookup (a ++ b) k = dictLookup b k := by
  induction a with
  | nil => simp
  | cons p rest ih =>
    obtain ⟨x, y⟩ := p
    by_cases hxk : x = k
    · subst hxk; simp [dictLookup] at h
    · simp [dictLookup, hxk] at h ⊢
      exact ih h

theorem foldl_dictSet_append (d : List (String × String)) :
    ∀ acc : List (String × String), (∀ p ∈ d, dictLookup acc p.1 = none) →
    (d.map Prod.fst).Nodup →
    List.foldl (fun a p => dictSet a p.1 p.2) acc d = acc ++ d := by
  induction d with
  | nil => intro acc _ _; simp
  | cons p rest ih =>
    intro acc hnone hnd
    obtain ⟨k, v⟩ := p
    have hk : dictLookup acc k = none := hnone (k, v) (by simp)
    have hstep : dictSet acc k v = acc ++ [(k, v)] := dictSet_append acc k v hk
    have hnd' : (rest.map Prod.fst).Nodup := (List.nodup_cons.mp hnd).2
    have hknotin : k ∉ rest.map Prod.fst := (List.nodup_cons.mp hnd).1
    have hnone' : ∀ q ∈ rest, dictLookup (acc ++ [(k, v)]) q.1 = none := by
      intro q hq
      have h1 : dictLookup acc q.1 = none := hnone q (by simp [hq])
      rw [dictLookup_append_right acc [(k, v)] q.1 h1]
      have hqk : ¬ (k = q.1) := by
        intro hkq
        exact hknotin (hkq ▸ List.mem_map_of_mem Prod.fst hq)
      simp [dictLookup, hqk]
    calc List.foldl (fun a p => dictSet a p.1 p.2) acc ((k, v) :: rest)
        = List.foldl (fun a p => dictSet a p.1 p.2) (acc ++ [(k, v)]) rest := by
          simp [hstep]
      _ = (acc ++ [(k, v)]) ++ rest := ih (acc ++ [(k, v)]) hnone' hnd'
      _ = acc ++ ((k, v) :: rest) := by simp

theorem jsonLoadObj_self (d : List (String × String))
    (h : (d.map Prod.fst).Nodup) : jsonLoadObj d = d := by
  have := foldl_dictSet_append d [] (by intro p _; simp [dictLookup]) h
  simpa [jsonLoadObj] using this

theorem cacheFind_keyfree (l : QueryCache) (k : String)
    (h : ∀ e ∈ l, e.1 ≠ k) : cacheFind l k = none := by
  induction l with
  | nil => rfl
  | cons e rest ih =>
    obtain ⟨k', t, v⟩ := e
    have hne : k' ≠ k := h (k', t, v) (by simp)
    have hrest := ih (fun e he => h e (List.mem_cons_of_mem _ he))
    simp [cacheFind, hne, hrest]

theorem cacheFind_append_right (a b : QueryCache) (k : String)
    (h : ∀ e ∈ a, e.1 ≠ k) : cacheFind (a ++ b) k = cacheFind b k := by
  induction a with
  | nil => rfl
  | cons e rest ih =>
    obtain ⟨k', t, v⟩ := e
    have hne : k' ≠ k := h (k', t, v) (by simp)
    have hrest := ih (fun e he => h e (List.mem_cons_of_mem _ he))
    simp [cacheFind, hne, hrest]

theorem cacheRemove_keyfree (l : QueryCache) (k : String) :
    ∀ e ∈ cacheRemove l k, e.1 ≠ k := by
  intro e he
  have := List.of_mem_filter he
  simpa using this

theorem cacheEvicted_keyfree (now : Nat) (qc : QueryCache) (k : String) :
    ∀ e ∈ cacheEvicted now qc k, e.1 ≠ k := by
  intro e he
  apply cacheRemove_keyfree (cacheExpireOld now qc) k
  have hsub : cacheEvicted now qc k ⊆ cacheRemove (cacheExpireOld now qc) k := by
    show (if cacheMaxsize ≤ (cacheRemove (cacheExpireOld now qc) k).length
      then (cacheRemove (cacheExpireOld now qc) k).drop
        ((cacheRemove (cacheExpireOld now qc) k).length + 1 - cacheMaxsize)
      else cacheRemove (cacheExpireOld now qc) k)
      ⊆ cacheRemove (cacheExpireOld now qc) k
    split
    · exact (List.drop_sublist _ _).subset
    · exact fun x hx => hx
  exact hsub he

theorem cacheGetitem_cacheSet_self (now1 now2 : Nat) (qc : QueryCache)
    (k : String) (v : List InlineResult) (h : now2 < now1 + cacheTtlVal) :
    ∃ qc2, cacheGetitem now2 (cacheSet now1 qc k v) k = some (v, qc2) := by
  have hfind : cacheFind (cacheExpireOld now2 (cacheSet now1 qc k v)) k
      = some (now1, v) := by
    rw [show cacheSet now1 qc k v = cacheEvicted now1 qc k ++ [(k, now1, v)] from rfl]
    unfold cacheExpireOld
    rw [List.filter_append]
    have hlast : List.filter (fun e => decide (now2 < e.2.1 + cacheTtlVal))
        [(k, now1, v)] = [(k, now1, v)] := by
      simp [h]
    rw [hlast]
    rw [cacheFind_append_right _ _ k
      (fun e he => cacheEvicted_keyfree now1 qc k e (List.mem_of_mem_filter he))]
    simp [cacheFind]
  refine ⟨cacheRemove (cacheExpireOld now2 (cacheSet now1 qc k v)) k
    ++ [(k, now1, v)], ?_⟩
  simp only [cacheGetitem]
  rw [hfind]

theorem namesOfAuthors_ok (l : List Author)
    (h : l.all (fun a => a.name.isSome) = true) :
    namesOfAuthors l = Except.ok (l.map (fun a => a.name.getD "")) := by
  induction l with
  | nil => rfl
  | cons a rest ih =>
    rw [List.all_cons] at h
    simp only [Bool.and_eq_true] at h
    obtain ⟨h1, h2⟩ := h
    cases hn : a.name with
    | none => rw [hn] at h1; simp at h1
    | some n => simp [namesOfAuthors, getKey, hn, ih h2]

theorem wf_slug (s : SongData) (h : wellFormedSong s = true) :
    s.slug = some (songSlug s) := by
  unfold wellFormedSong at h
  have h1 : s.slug.isSome = true := by
    simp only [Bool.and_eq_true] at h
    exact h.1.1.1
  cases hs : s.slug with
  | none => rw [hs] at h1; simp at h1
  | some x => simp [songSlug, hs]

theorem wf_file (s : SongData) (h : wellFormedSong s = true) :
    s.file = some (songFileUrl s) := by
  unfold wellFormedSong at h
  have h1 : s.file.isSome = true := by
    simp only [Bool.and_eq_true] at h
    exact h.1.1.2
  cases hs : s.file with
  | none => rw [hs] at h1; simp at h1
  | some x => simp [songFileUrl, hs]

theorem wf_album (s : SongData) (h : wellFormedSong s = true) :
    ∃ a, s.album = some a ∧ a.slug = some (albumSlugOf s) := by
  unfold wellFormedSong at h
  have h1 : (match s.album with
      | some a => a.slug.isSome
      | none => false) = true := by
    simp only [Bool.and_eq_true] at h
    exact h.1.2
  cases ha : s.album with
  | none => rw [ha] at h1; simp at h1
  | some a =>
    rw [ha] at h1
    have h2 : a.slug.isSome = true := by simpa using h1
    cases hs : a.slug with
    | none => rw [hs] at h2; simp at h2
    | some x => exact ⟨a, rfl, by simp [albumSlugOf, ha, hs]⟩

theorem wf_perf (s : SongData) (h : wellFormedSong s = true) :
    joinAuthors s.authors = Except.ok (buildPerformer s) := by
  unfold wellFormedSong at h
  have h1 : (s.authors.getD []).all (fun a => a.name.isSome) = true := by
    simp only [Bool.and_eq_true] at h
    exact h.2
  unfold joinAuthors buildPerformer
  rw [namesOfAuthors_ok _ h1]

theorem resolver_hit (net : Network) (song : SongData) (st : TokenStore)
    (s tok : String) (hs : song.slug = some s)
    (hlk : dictLookup st.storage s = some tok) :
    get_telegram_file_id net song st = Except.ok (some tok, st, []) := by
  simp [get_telegram_file_id, getKey, hs, hlk]

theorem resolver_media_fail (net : Network) (song : SongData) (st : TokenStore)
    (hwf : wellFormedSong song = true)
    (habs : dictLookup st.storage (songSlug song) = none)
    (hm : net.media (songFileUrl song) = none) :
    get_telegram_file_id net song st =
      Except.ok (none, st, [NetEvent.mediaCall (songFileUrl song)]) := by
  have hs := wf_slug song hwf
  have hf := wf_file song hwf
  have hp := wf_perf song hwf
  simp [get_telegram_file_id, getKey, hs, hf, hp, habs, hm]

theorem resolver_success (net : Network) (song : SongData) (st : TokenStore)
    (b : Nat) (fid : String) (hwf : wellFormedSong song = true)
    (habs : dictLookup st.storage (songSlug song) = none)
    (hm : net.media (songFileUrl song) = some b)
    (hsend : net.sendAudio (reqOf net song b) = some fid) :
    get_telegram_file_id net song st = Except.ok (some fid,
      { storage := dictSet st.storage (songSlug song) fid,
        file := FileContent.valid (dictSet st.storage (songSlug song) fid) },
      NetEvent.mediaCall (songFileUrl song)
        :: (thumbEvOf song ++ [NetEvent.uploadCall])) := by
  have hs := wf_slug song hwf
  have hf := wf_file song hwf
  have hp := wf_perf song hwf
  rw [reqOf] at hsend
  simp only [captionOf, albumSlugOf] at hsend
  cases hic : song.image_cropped with
  | none =>
    rw [hic] at hsend
    simp only [get_telegram_file_id, getKey, hs, hf, hp, habs, hm, hic,
      download_thumbnail, thumbEvOf]
    rw [hsend]
  | some u =>
    rw [hic] at hsend
    simp only [get_telegram_file_id, getKey, hs, hf, hp, habs, hm, hic,
      download_thumbnail, thumbEvOf]
    rw [hsend]

theorem resolver_shape (net : Network) (song : SongData) (st : TokenStore)
    (r : Option String) (st' : TokenStore) (ev : List NetEvent)
    (h : get_telegram_file_id net song st = Except.ok (r, st', ev)) :
    ∃ s, song.slug = some s ∧
      ((st' = st ∧ (r = none ∨ dictLookup st.storage s = r))
       ∨ ∃ fid, dictLookup st.storage s = none ∧ r = some fid ∧
           st' = { storage := dictSet st.storage s fid,
                   file := FileContent.valid (dictSet st.storage s fid) }) := by
  unfold get_telegram_file_id at h
  split at h
  · exact absurd h (by simp)
  rename_i s heqs
  have hslug : song.slug = some s := (getKey_ok song.slug "slug" s).mp heqs
  refine ⟨s, hslug, ?_⟩
  split at h
  · rename_i tok hlk
    simp only [Except.ok.injEq, Prod.mk.injEq] at h
    exact Or.inl ⟨h.2.1.symm, Or.inr (by rw [hlk, h.1])⟩
  rename_i hlk
  split at h
  · exact absurd h (by simp)
  rename_i u hequ
  split at h
  · exact absurd h (by simp)
  rename_i p heqp
  split at h
  · -- media downloaded
    rename_i b hm
    split at h
    · -- a thumbnail URL is present
      rename_i u2 hic
      split at h
      · rename_i fid hsend
        simp only [Except.ok.injEq, Prod.mk.injEq] at h
        exact Or.inr ⟨fid, hlk, h.1.symm, h.2.1.symm⟩
      · exact absurd h (by simp)
    · -- no thumbnail URL
      rename_i hic
      split at h
      · rename_i fid hsend
        simp only [Except.ok.injEq, Prod.mk.injEq] at h
        exact Or.inr ⟨fid, hlk, h.1.symm, h.2.1.symm⟩
      · exact absurd h (by simp)
  · -- media download failed
    rename_i hm
    simp only [Except.ok.injEq, Prod.mk.injEq] at h
    exact Or.inl ⟨h.2.1.symm, Or.inl h.1.symm⟩

theorem resolver_preserves (net : Network) (song : SongData) (st : TokenStore)
    (r : Option String) (st' : TokenStore) (ev : List NetEvent)
    (h : get_telegram_file_id net song st = Except.ok (r, st', ev)) :
    (∀ k v, dictLookup st.storage k = some v → dictLookup st'.storage k = some v)
    ∧ ((st.storage.map Prod.fst).Nodup → (st'.storage.map Prod.fst).Nodup) := by
  obtain ⟨s, hslug, hcase⟩ := resolver_shape net song st r st' ev h
  rcases hcase with ⟨hst, _⟩ | ⟨fid, hlk, hr, hst⟩
  · subst hst; exact ⟨fun k v hv => hv, fun hn => hn⟩
  · subst hst
    constructor
    · intro k v hv
      show dictLookup (dictSet st.storage s fid) k = some v
      rw [dictLookup_dictSet]
      have hsk : ¬ s = k := by
        intro hsk
        subst hsk
        rw [hlk] at hv
        cases hv
      simp [hsk, hv]
    · intro hn
      exact nodup_dictSet _ _ _ hn

theorem resolver_some_lookup (net : Network) (song : SongData) (st : TokenStore)
    (s fid : String) (st' : TokenStore) (ev : List NetEvent)
    (hs : song.slug = some s)
    (h : get_telegram_file_id net song st = Except.ok (some fid, st', ev)) :
    dictLookup st'.storage s = some fid := by
  obtain ⟨s0, hslug, hcase⟩ := resolver_shape net song st (some fid) st' ev h
  have hss : s = s0 := by
    rw [hs] at hslug
    exact Option.some.inj hslug
  rcases hcase with ⟨hst, hv⟩ | ⟨fid2, hlk, hr, hst⟩
  · rcases hv with hnone | hlkr
    · cases hnone
    · rw [hst, hss]
      exact hlkr
  · injection hr with hx
    rw [hst, hss]
    show dictLookup (dictSet st.storage s0 fid2) s0 = some fid
    rw [dictLookup_dictSet]
    simp [hx]

theorem store_file_id_storage_same (st1 : TokenStore) (slug fid : String)
    (h : dictLookup st1.storage slug = some fid) :
    (store_file_id st1 slug fid).storage = st1.storage := by
  simp [store_file_id, dictSet_self _ _ _ h]

theorem inlineLoop_preserves (net : Network) :
    ∀ (songs : List SongData) (st : TokenStore) (rs : List InlineResult)
      (st' : TokenStore) (ev : List NetEvent),
      inlineQueryLoop net songs st = Except.ok (rs, st', ev) →
      (∀ k v, dictLookup st.storage k = some v → dictLookup st'.storage k = some v)
      ∧ ((st.storage.map Prod.fst).Nodup → (st'.storage.map Prod.fst).Nodup) := by
  intro songs
  induction songs with
  | nil =>
    intro st rs st' ev h
    simp only [inlineQueryLoop, Except.ok.injEq, Prod.mk.injEq] at h
    rw [← h.2.1]
    exact ⟨fun k v hv => hv, fun hn => hn⟩
  | cons song rest ih =>
    intro st rs st' ev h
    unfold inlineQueryLoop at h
    split at h
    · exact absurd h (by simp)
    rename_i fidOpt st1 ev1 hres
    have hpres := resolver_preserves net song st fidOpt st1 ev1 hres
    split at h
    · rename_i fid
      split at h
      · exact absurd h (by simp)
      rename_i slug heqslug
      split at h
      · exact absurd h (by simp)
      rename_i album heqalbum
      split at h
      · exact absurd h (by simp)
      rename_i albumSlug heqas
      split at h
      · exact absurd h (by simp)
      rename_i rs0 st2 ev2 hrec
      have hpres2 := ih st1 rs0 st2 ev2 hrec
      simp only [Except.ok.injEq, Prod.mk.injEq] at h
      rw [← h.2.1]
      exact ⟨fun k v hv => hpres2.1 k v (hpres.1 k v hv),
        fun hn => hpres2.2 (hpres.2 hn)⟩
    · split at h
      · exact absurd h (by simp)
      rename_i rs0 st2 ev2 hrec
      have hpres2 := ih st1 rs0 st2 ev2 hrec
      simp only [Except.ok.injEq, Prod.mk.injEq] at h
      rw [← h.2.1]
      exact ⟨fun k v hv => hpres2.1 k v (hpres.1 k v hv),
        fun hn => hpres2.2 (hpres.2 hn)⟩

theorem uploadLoop_preserves (net : Network) :
    ∀ (songs : List SongData) (st st' : TokenStore) (ev : List NetEvent),
      uploadSongsLoop net songs st = Except.ok (st', ev) →
      (∀ k v, dictLookup st.storage k = some v → dictLookup st'.storage k = some v)
      ∧ ((st.storage.map Prod.fst).Nodup → (st'.storage.map Prod.fst).Nodup) := by
  intro songs
  induction songs with
  | nil =>
    intro st st' ev h
    simp only [uploadSongsLoop, Except.ok.injEq, Prod.mk.injEq] at h
    rw [← h.1]
    exact ⟨fun k v hv => hv, fun hn => hn⟩
  | cons song rest ih =>
    intro st st' ev h
    unfold uploadSongsLoop at h
    split at h
    · exact absurd h (by simp)
    rename_i slug heqslug
    have hs : song.slug = some slug := (getKey_ok song.slug "slug" slug).mp heqslug
    split at h
    · exact ih st st' ev h
    · rename_i hnc
      split at h
      · exact absurd h (by simp)
      rename_i fidOpt st1 ev1 hres
      have hpres := resolver_preserves net song st fidOpt st1 ev1 hres
      split at h
      · rename_i fid
        split at h
        · exact absurd h (by simp)
        rename_i st3 ev2 hrec
        have hself : dictLookup st1.storage slug = some fid :=
          resolver_some_lookup net song st slug fid st1 ev1 hs hres
        have hsame : (store_file_id st1 slug fid).storage = st1.storage :=
          store_file_id_storage_same st1 slug fid hself
        have hpres2 := ih (store_file_id st1 slug fid) st3 ev2 hrec
        simp only [Except.ok.injEq, Prod.mk.injEq] at h
        rw [← h.1]
        constructor
        · intro k v hv
          apply hpres2.1 k v
          rw [hsame]
          exact hpres.1 k v hv
        · intro hn
          apply hpres2.2
          rw [hsame]
          exact hpres.2 hn
      · split at h
        · exact absurd h (by simp)
        rename_i st3 ev2 hrec
        have hpres2 := ih st1 st3 ev2 hrec
        simp only [Except.ok.injEq, Prod.mk.injEq] at h
        rw [← h.1]
        exact ⟨fun k v hv => hpres2.1 k v (hpres.1 k v hv),
          fun hn => hpres2.2 (hpres.2 hn)⟩

theorem countMedia_append (a b : List NetEvent) :
    countMediaCalls (a ++ b) = countMediaCalls a + countMediaCalls b := by
  simp [countMediaCalls, List.filter_append]

theorem countUpload_append (a b : List NetEvent) :
    countUploadCalls (a ++ b) = countUploadCalls a + countUploadCalls b := by
  simp [countUploadCalls, List.filter_append]

theorem countMedia_thumb (s : SongData) : countMediaCalls (thumbEvOf s) = 0 := by
  cases h : s.image_cropped <;> simp [thumbEvOf, h, countMediaCalls, isMediaCall]

theorem countUpload_thumb (s : SongData) : countUploadCalls (thumbEvOf s) = 0 := by
  cases h : s.image_cropped <;> simp [thumbEvOf, h, countUploadCalls, isUploadCall]

theorem fetchAllPages_counts (net : Network) :
    ∀ (fuel : Nat) (url : Option String),
      countMediaCalls (fetchAllPages net fuel url).2 = 0
      ∧ countUploadCalls (fetchAllPages net fuel url).2 = 0 := by
  intro fuel
  induction fuel with
  | zero =>
    intro url
    cases url <;> simp [fetchAllPages, countMediaCalls, countUploadCalls]
  | succ f ih =>
    intro url
    cases url with
    | none => simp [fetchAllPages, countMediaCalls, countUploadCalls]
    | some u =>
      cases hp : net.page u with
      | none =>
        simp [fetchAllPages, hp, countMediaCalls, countUploadCalls,
          isMediaCall, isUploadCall]
      | some resp =>
        have := ih resp.next
        simp [fetchAllPages, hp, countMediaCalls, countUploadCalls,
          isMediaCall, isUploadCall, List.filter_append] at this ⊢
        exact this

theorem length_filter_not (l : List SongData) (p : SongData → Bool) :
    (l.filter (fun s => !(p s))).length = l.length - (l.filter p).length := by
  induction l with
  | nil => rfl
  | cons a rest ih =>
    have hle := List.length_filter_le p rest
    by_cases hp : p a
    · simp [List.filter_cons, hp, ih]
    · simp [List.filter_cons, hp, ih]
      omega

theorem inlineLoop_spec (net : Network) (st0 : TokenStore)
    (hupl : ∀ r, (net.sendAudio r).isSome = true) :
    ∀ (songs : List SongData) (st : TokenStore),
      (∀ s ∈ songs, wellFormedSong s = true) →
      (songs.map songSlug).Nodup →
      (∀ s ∈ songs, dictLookup st.storage (songSlug s)
        = dictLookup st0.storage (songSlug s)) →
      ∃ st' ev, inlineQueryLoop net songs st =
        Except.ok (specAssemble net st0 songs, st', ev) := by
  intro songs
  induction songs with
  | nil =>
    intro st _ _ _
    exact ⟨st, [], rfl⟩
  | cons song rest ih =>
    intro st hwf hnd hagree
    have hwf0 : wellFormedSong song = true := hwf song (List.mem_cons_self song rest)
    have hagree0 := hagree song (List.mem_cons_self song rest)
    have hs := wf_slug song hwf0
    obtain ⟨alb, halbum, halbslug⟩ := wf_album song hwf0
    have hnd' : (songSlug song :: rest.map songSlug).Nodup := by simpa using hnd
    have hndrest := (List.nodup_cons.mp hnd').2
    have hnotin := (List.nodup_cons.mp hnd').1
    have hwfrest : ∀ s ∈ rest, wellFormedSong s = true :=
      fun s hsmem => hwf s (List.mem_cons_of_mem song hsmem)
    cases hlk : dictLookup st.storage (songSlug song) with
    | some tok =>
      have hres := resolver_hit net song st (songSlug song) tok hs hlk
      have hlk0 : dictLookup st0.storage (songSlug song) = some tok := by
        rw [← hagree0]; exact hlk
      obtain ⟨st', ev, hrec⟩ := ih st hwfrest hndrest
        (fun s hsmem => hagree s (List.mem_cons_of_mem song hsmem))
      refine ⟨st', [] ++ ev, ?_⟩
      rw [show specAssemble net st0 (song :: rest)
          = { id := songSlug song, audio_file_id := tok,
              caption := captionOf song } :: specAssemble net st0 rest from by
        simp [specAssemble, List.filterMap_cons, specResolve, hlk0]]
      simp only [inlineQueryLoop, hres, getKey, hs, halbum, halbslug, hrec,
        captionOf]
    | none =>
      have hlk0 : dictLookup st0.storage (songSlug song) = none := by
        rw [← hagree0]; exact hlk
      cases hm : net.media (songFileUrl song) with
      | none =>
        have hres := resolver_media_fail net song st hwf0 hlk hm
        obtain ⟨st', ev, hrec⟩ := ih st hwfrest hndrest
          (fun s hsmem => hagree s (List.mem_cons_of_mem song hsmem))
        refine ⟨st', [NetEvent.mediaCall (songFileUrl song)] ++ ev, ?_⟩
        rw [show specAssemble net st0 (song :: rest)
            = specAssemble net st0 rest from by
          simp [specAssemble, List.filterMap_cons, specResolve, hlk0, hm]]
        simp only [inlineQueryLoop, hres, hrec]
      | some b =>
        have hsome := hupl (reqOf net song b)
        cases hsend : net.sendAudio (reqOf net song b) with
        | none => rw [hsend] at hsome; simp at hsome
        | some fid =>
          have hres := resolver_success net song st b fid hwf0 hlk hm hsend
          have hagree1 : ∀ s ∈ rest,
              dictLookup (dictSet st.storage (songSlug song) fid) (songSlug s)
                = dictLookup st0.storage (songSlug s) := by
            intro s hsmem
            rw [dictLookup_dictSet]
            have hne : ¬ songSlug song = songSlug s := by
              intro heq
              exact hnotin (heq ▸ List.mem_map_of_mem songSlug hsmem)
            simp only [hne, if_false]
            exact hagree s (List.mem_cons_of_mem song hsmem)
          obtain ⟨st', ev, hrec⟩ := ih
            { storage := dictSet st.storage (songSlug song) fid,
              file := FileContent.valid (dictSet st.storage (songSlug song) fid) }
            hwfrest hndrest hagree1
          refine ⟨st', (NetEvent.mediaCall (songFileUrl song)
            :: (thumbEvOf song ++ [NetEvent.uploadCall])) ++ ev, ?_⟩
          rw [show specAssemble net st0 (song :: rest)
              = { id := songSlug song, audio_file_id := fid,
                  caption := captionOf song } :: specAssemble net st0 rest from by
            simp [specAssemble, List.filterMap_cons, specResolve, hlk0, hm, hsend]]
          simp only [inlineQueryLoop, hres, getKey, hs, halbum, halbslug, hrec,
            captionOf]

theorem uploadLoop_counts (net : Network) (st0 : TokenStore)
    (hupl : ∀ r, (net.sendAudio r).isSome = true) :
    ∀ (songs : List SongData) (st : TokenStore),
      (∀ s ∈ songs, wellFormedSong s = true) →
      (songs.map songSlug).Nodup →
      (∀ s ∈ songs, (net.media (songFileUrl s)).isSome = true) →
      (∀ s ∈ songs, dictLookup st.storage (songSlug s)
        = dictLookup st0.storage (songSlug s)) →
      ∃ st' ev, uploadSongsLoop net songs st = Except.ok (st', ev)
        ∧ countMediaCalls ev
          = (songs.filter (fun s => !(dictContains st0.storage (songSlug s)))).length
        ∧ countUploadCalls ev
          = (songs.filter (fun s => !(dictContains st0.storage (songSlug s)))).length := by
  intro songs
  induction songs with
  | nil =>
    intro st _ _ _ _
    exact ⟨st, [], rfl, rfl, rfl⟩
  | cons song rest ih =>
    intro st hwf hnd hmedia hagree
    have hwf0 : wellFormedSong song = true := hwf song (List.mem_cons_self song rest)
    have hagree0 := hagree song (List.mem_cons_self song rest)
    have hs := wf_slug song hwf0
    have hnd' : (songSlug song :: rest.map songSlug).Nodup := by simpa using hnd
    have hndrest := (List.nodup_cons.mp hnd').2
    have hnotin := (List.nodup_cons.mp hnd').1
    have hwfrest : ∀ s ∈ rest, wellFormedSong s = true :=
      fun s hsmem => hwf s (List.mem_cons_of_mem song hsmem)
    have hmediarest : ∀ s ∈ rest, (net.media (songFileUrl s)).isSome = true :=
      fun s hsmem => hmedia s (List.mem_cons_of_mem song hsmem)
    cases hlk : dictLookup st.storage (songSlug song) with
    | some tok =>
      have hc : dictContains st.storage (songSlug song) = true := by
        simp [dictContains, hlk]
      have hc0 : dictContains st0.storage (songSlug song) = true := by
        simp [dictContains, ← hagree0, hlk]
      obtain ⟨st', ev, hrec, hcm, hcu⟩ := ih st hwfrest hndrest hmediarest
        (fun s hsmem => hagree s (List.mem_cons_of_mem song hsmem))
      refine ⟨st', ev, ?_, ?_, ?_⟩
      · simp only [uploadSongsLoop, getKey, hs, hc, if_true]
        exact hrec
      · rw [hcm]
        simp [List.filter_cons, hc0]
      · rw [hcu]
        simp [List.filter_cons, hc0]
    | none =>
      have hc : dictContains st.storage (songSlug song) = false := by
        simp [dictContains, hlk]
      have hc0 : dictContains st0.storage (songSlug song) = false := by
        simp [dictContains, ← hagree0, hlk]
      have hmed := hmedia song (List.mem_cons_self song rest)
      cases hm : net.media (songFileUrl song) with
      | none => rw [hm] at hmed; simp at hmed
      | some b =>
        have hsome := hupl (reqOf net song b)
        cases hsend : net.sendAudio (reqOf net song b) with
        | none => rw [hsend] at hsome; simp at hsome
        | some fid =>
          have hres := resolver_success net song st b fid hwf0 hlk hm hsend
          have hself : dictLookup (dictSet st.storage (songSlug song) fid)
              (songSlug song) = some fid := by
            rw [dictLookup_dictSet]; simp
          have hstore : store_file_id
              { storage := dictSet st.storage (songSlug song) fid,
                file := FileContent.valid (dictSet st.storage (songSlug song) fid) }
              (songSlug song) fid
              = { storage := dictSet st.storage (songSlug song) fid,
                  file := FileContent.valid
                    (dictSet st.storage (songSlug song) fid) } := by
            simp [store_file_id, dictSet_self _ _ _ hself]
          have hagree1 : ∀ s ∈ rest,
              dictLookup (dictSet st.storage (songSlug song) fid) (songSlug s)
                = dictLookup st0.storage (songSlug s) := by
            intro s hsmem
            rw [dictLookup_dictSet]
            have hne : ¬ songSlug song = songSlug s := by
              intro heq
              exact hnotin (heq ▸ List.mem_map_of_mem songSlug hsmem)
            simp only [hne, if_false]
            exact hagree s (List.mem_cons_of_mem song hsmem)
          obtain ⟨st', ev, hrec, hcm, hcu⟩ := ih
            { storage := dictSet st.storage (songSlug song) fid,
              file := FileContent.valid (dictSet st.storage (songSlug song) fid) }
            hwfrest hndrest hmediarest hagree1
          refine ⟨st', (NetEvent.mediaCall (songFileUrl song)
            :: (thumbEvOf song ++ [NetEvent.uploadCall])) ++ ev, ?_, ?_, ?_⟩
          · simp only [uploadSongsLoop, getKey, hs, hc, if_false, hres, hstore,
              hrec]
            simp
          · rw [countMedia_append]
            rw [show countMediaCalls (NetEvent.mediaCall (songFileUrl song)
                :: (thumbEvOf song ++ [NetEvent.uploadCall])) = 1 from by
              simp [countMediaCalls, isMediaCall, List.filter_append,
                countMedia_thumb song, thumbEvOf]
              cases hic : song.image_cropped <;>
                simp [thumbEvOf, hic, isMediaCall]]
            rw [hcm]
            simp [List.filter_cons, hc0, Nat.add_comm]
          · rw [countUpload_append]
            rw [show countUploadCalls (NetEvent.mediaCall (songFileUrl song)
                :: (thumbEvOf song ++ [NetEvent.uploadCall])) = 1 from by
              simp [countUploadCalls, isUploadCall, List.filter_append]
              cases hic : song.image_cropped <;>
                simp [thumbEvOf, hic, isUploadCall]]
            rw [hcu]
            simp [List.filter_cons, hc0, Nat.add_comm]

theorem resolver_ok_of_wf (net : Network) (song : SongData) (st : TokenStore)
    (hwf : wellFormedSong song = true)
    (hupl : ∀ r, (net.sendAudio r).isSome = true) :
    ∃ fidOpt st1 ev1,
      get_telegram_file_id net song st = Except.ok (fidOpt, st1, ev1) := by
  have hs := wf_slug song hwf
  cases hlk : dictLookup st.storage (songSlug song) with
  | some tok =>
    exact ⟨some tok, st, [], resolver_hit net song st (songSlug song) tok hs hlk⟩
  | none =>
    cases hm : net.media (songFileUrl song) with
    | none =>
      exact ⟨none, st, [NetEvent.mediaCall (songFileUrl song)],
        resolver_media_fail net song st hwf hlk hm⟩
    | some b =>
      have hsome := hupl (reqOf net song b)
      cases hsend : net.sendAudio (reqOf net song b) with
      | none => rw [hsend] at hsome; simp at hsome
      | some fid =>
        exact ⟨some fid, _, _, resolver_success net song st b fid hwf hlk hm hsend⟩

theorem inlineLoop_ok (net : Network)
    (hupl : ∀ r, (net.sendAudio r).isSome = true) :
    ∀ (songs : List SongData) (st : TokenStore),
      (∀ s ∈ songs, wellFormedSong s = true) →
      ∃ rs st' ev, inlineQueryLoop net songs st = Except.ok (rs, st', ev) := by
  intro songs
  induction songs with
  | nil =>
    intro st _
    exact ⟨[], st, [], rfl⟩
  | cons song rest ih =>
    intro st hwf
    have hwf0 : wellFormedSong song = true := hwf song (List.mem_cons_self song rest)
    have hs := wf_slug song hwf0
    obtain ⟨alb, halbum, halbslug⟩ := wf_album song hwf0
    obtain ⟨fidOpt, st1, ev1, hres⟩ := resolver_ok_of_wf net song st hwf0 hupl
    obtain ⟨rs, st', ev, hrec⟩ := ih st1
      (fun s hsmem => hwf s (List.mem_cons_of_mem song hsmem))
    cases fidOpt with
    | some fid =>
      refine ⟨InlineResult.mk (songSlug song) fid
        ("https://next.akarpov.ru/music/albums/"
          ++ albumSlugOf song ++ "#" ++ songSlug song) :: rs,
        st', ev1 ++ ev, ?_⟩
      simp only [inlineQueryLoop, hres, getKey, hs, halbum, halbslug, hrec]
    | none =>
      refine ⟨rs, st', ev1 ++ ev, ?_⟩
      simp only [inlineQueryLoop, hres, hrec]

theorem inlineLoop_allFail (net : Network) :
    ∀ (songs : List SongData) (st : TokenStore),
      (∀ s ∈ songs, wellFormedSong s = true
        ∧ dictLookup st.storage (songSlug s) = none
        ∧ net.media (songFileUrl s) = none) →
      inlineQueryLoop net songs st = Except.ok ([], st,
        songs.map (fun s => NetEvent.mediaCall (songFileUrl s))) := by
  intro songs
  induction songs with
  | nil => intro st _; rfl
  | cons song rest ih =>
    intro st hall
    obtain ⟨hwf0, hlk, hm⟩ := hall song (List.mem_cons_self song rest)
    have hres := resolver_media_fail net song st hwf0 hlk hm
    have hrec := ih st (fun s hsmem => hall s (List.mem_cons_of_mem song hsmem))
    simp only [inlineQueryLoop, hres, hrec, List.map_cons]
    simp

theorem runPuts_storage_nodup :
    ∀ (ps : List (String × String)) (st : TokenStore),
      (st.storage.map Prod.fst).Nodup →
      ((runPuts st ps).storage.map Prod.fst).Nodup := by
  intro ps
  induction ps with
  | nil => intro st h; exact h
  | cons p rest ih =>
    intro st h
    show ((runPuts (store_file_id st p.1 p.2) rest).storage.map Prod.fst).Nodup
    apply ih
    show ((dictSet st.storage p.1 p.2).map Prod.fst).Nodup
    exact nodup_dictSet _ _ _ h

theorem runPuts_file_valid :
    ∀ (ps : List (String × String)) (st : TokenStore), ps ≠ [] →
      (runPuts st ps).file = FileContent.valid ((runPuts st ps).storage) := by
  intro ps
  induction ps with
  | nil => intro st h; exact absurd rfl h
  | cons p rest ih =>
    intro st _
    cases rest with
    | nil => rfl
    | cons q qs =>
      show (runPuts (store_file_id st p.1 p.2) (q :: qs)).file
        = FileContent.valid ((runPuts (store_file_id st p.1 p.2) (q :: qs)).storage)
      exact ih (store_file_id st p.1 p.2) (List.cons_ne_nil q qs)

/-- Claim C1: for every song record whose slug already has a TokenEntry in the
token store, get_telegram_file_id returns the stored token immediately,
leaves the store unchanged, and performs zero network calls (no media
fetch, no thumbnail fetch, no upload): its event trace is empty. -/
theorem c1_fast_path_no_network (net : Network) (song : SongData)
    (st : TokenStore) (s tok : String)
    (hs : song.slug = some s)
    (hlk : dictLookup st.storage s = some tok) :
    get_telegram_file_id net song st = Except.ok (some tok, st, []) :=
  resolver_hit net song st s tok hs hlk

/-- Witness for C1 at a concrete input. -/
theorem c1_fast_path_no_network_witness :
    get_telegram_file_id cNetA songA stA = Except.ok (some "tokA", stA, []) :=
  c1_fast_path_no_network cNetA songA stA "a" "tokA" rfl rfl

/-- Claim C2: when the media fetch of a song answers with a non-success
status, resolution yields no token and creates no TokenEntry (the store
is returned unchanged, its only network call being the failed media
fetch), and an inline query whose search returned exactly that song
answers with the empty result list. -/
theorem c2_media_failure_no_token (net : Network) (song : SongData)
    (now : Nat) (rawQ : String) (st : TokenStore) (qc : QueryCache)
    (hwf : wellFormedSong song = true)
    (habs : dictLookup st.storage (songSlug song) = none)
    (hm : net.media (songFileUrl song) = none)
    (hsr : net.search (pyStrip rawQ) 5 = some [song])
    (hmiss : cacheGetitem now qc (pyStrip rawQ) = none) :
    get_telegram_file_id net song st
      = Except.ok (none, st, [NetEvent.mediaCall (songFileUrl song)])
    ∧ inline_query net now rawQ st qc
      = Except.ok ([], st, cacheSet now qc (pyStrip rawQ) [],
          [NetEvent.searchCall (pyStrip rawQ) 5,
           NetEvent.mediaCall (songFileUrl song)]) := by
  refine ⟨resolver_media_fail net song st hwf habs hm, ?_⟩
  have hloop := inlineLoop_allFail net [song] st (by
    intro s hsmem
    have hseq : s = song := by simpa using hsmem
    rw [hseq]
    exact ⟨hwf, habs, hm⟩)
  simp only [inline_query, hmiss, fetch_songs_from_api, hsr, hloop]
  simp

/-- Witness for C2 at a concrete input. -/
theorem c2_media_failure_no_token_witness :
    get_telegram_file_id cNetFail songA emptyStore
      = Except.ok (none, emptyStore, [NetEvent.mediaCall (songFileUrl songA)])
    ∧ inline_query cNetFail 0 "blue" emptyStore []
      = Except.ok ([], emptyStore, cacheSet 0 [] (pyStrip "blue") [],
          [NetEvent.searchCall (pyStrip "blue") 5,
           NetEvent.mediaCall (songFileUrl songA)]) :=
  c2_media_failure_no_token cNetFail songA 0 "blue" emptyStore []
    (by decide) rfl rfl rfl rfl

/-- Claim C4 counterexample: an unparseable persisted file is not treated as
an empty store; load_file_ids raises json.JSONDecodeError instead. -/
theorem c4_counterexample_corrupt_raises :
    load_file_ids FileContent.corrupt
      = Except.error "json.decoder.JSONDecodeError"
    ∧ load_file_ids FileContent.corrupt ≠ Except.ok [] :=
  ⟨rfl, fun h => Except.noConfusion h⟩

/-- Claim C4 (amended): on startup the mapping is loaded from the persisted
file and a missing file is treated as an empty store; an unparseable
file, however, raises and is fatal. -/
theorem c4_load_missing_is_empty :
    load_file_ids FileContent.missing = Except.ok []
    ∧ load_file_ids FileContent.corrupt
      = Except.error "json.decoder.JSONDecodeError" :=
  ⟨rfl, rfl⟩

/-- Claim C8: after any nonempty sequence of store_file_id puts on a store
with distinct slugs, loading the persisted file as a fresh startup
reproduces exactly the in-memory slug to token mapping. -/
theorem c8_persist_load_roundtrip (st : TokenStore)
    (ps : List (String × String))
    (hn : (st.storage.map Prod.fst).Nodup)
    (hne : ps ≠ []) :
    load_file_ids (runPuts st ps).file
      = Except.ok ((runPuts st ps).storage) := by
  rw [runPuts_file_valid ps st hne]
  show Except.ok (jsonLoadObj ((runPuts st ps).storage)) = _
  rw [jsonLoadObj_self _ (runPuts_storage_nodup ps st hn)]

/-- Witness for C8 at a concrete input. -/
theorem c8_persist_load_roundtrip_witness :
    load_file_ids (runPuts emptyStore [("a", "1"), ("b", "2")]).file
      = Except.ok ((runPuts emptyStore [("a", "1"), ("b", "2")]).storage) :=
  c8_persist_load_roundtrip emptyStore [("a", "1"), ("b", "2")]
    (by decide) (by decide)

/-- Claim C3 counterexample: a catalog search that returns a malformed song
record (no slug key) makes the inline handler raise a KeyError instead
of answering with a result list. -/
theorem c3_counterexample_malformed_song :
    inline_query cNetBad 0 "x" emptyStore [] = Except.error "KeyError: slug" :=
  rfl

/-- Claim C3 (amended): for every query whose catalog search results are all
well-formed song records, assuming platform uploads do not raise, the
inline answer path returns a result list rather than raising; in
particular a catalog non-success status yields the empty result list.
A malformed song record instead raises out of the handler. -/
theorem c3_inline_always_answers (net : Network) (now : Nat) (rawQ : String)
    (st : TokenStore) (qc : QueryCache)
    (hupl : ∀ r, (net.sendAudio r).isSome = true)
    (hwf : ∀ songs, net.search (pyStrip rawQ) 5 = some songs →
      ∀ s ∈ songs, wellFormedSong s = true) :
    (runResults (inline_query net now rawQ st qc)).isSome = true
    ∧ (cacheGetitem now qc (pyStrip rawQ) = none →
        net.search (pyStrip rawQ) 5 = none →
        inline_query net now rawQ st qc = Except.ok ([], st,
          cacheSet now qc (pyStrip rawQ) [],
          [NetEvent.searchCall (pyStrip rawQ) 5])) := by
  constructor
  · cases hmiss : cacheGetitem now qc (pyStrip rawQ) with
    | some p =>
      obtain ⟨results, qc2⟩ := p
      simp [inline_query, hmiss, runResults]
    | none =>
      cases hsr : net.search (pyStrip rawQ) 5 with
      | none =>
        simp [inline_query, hmiss, fetch_songs_from_api, hsr, inlineQueryLoop,
          runResults]
      | some songs =>
        obtain ⟨rs, st', ev, hloop⟩ := inlineLoop_ok net hupl songs st
          (hwf songs hsr)
        simp [inline_query, hmiss, fetch_songs_from_api, hsr, hloop, runResults]
  · intro hmiss hnone
    simp only [inline_query, hmiss, fetch_songs_from_api, hnone, inlineQueryLoop]
    simp

/-- Witness for C3 at a concrete input. -/
theorem c3_inline_always_answers_witness :
    (runResults (inline_query cNetNone 0 "q" emptyStore [])).isSome = true
    ∧ inline_query cNetNone 0 "q" emptyStore [] = Except.ok ([], emptyStore,
        cacheSet 0 [] (pyStrip "q") [],
        [NetEvent.searchCall (pyStrip "q") 5]) := by
  have h := c3_inline_always_answers cNetNone 0 "q" emptyStore []
    (fun r => rfl) (fun songs hcontra => nomatch hcontra)
  exact ⟨h.1, h.2 rfl rfl⟩

/-- Claim C5 counterexample: a bulk run over a one-page catalog holding a
single unresolved song resolves and stores that one song, but the
function returns None, not the count 1 of newly resolved songs. -/
theorem c5_counterexample_no_count :
    upload_songs cNetA 2 emptyStore = Except.ok (none, stA,
      [NetEvent.pageCall (apiBaseUrl ++ "?page_size=1000"),
       NetEvent.mediaCall "http://x/a.mp3", NetEvent.uploadCall])
    ∧ stA.storage.length = 1
    ∧ (none : Option Nat) ≠ some stA.storage.length := by
  refine ⟨rfl, rfl, ?_⟩
  intro h
  cases h

/-- Claim C5 (amended): upload_songs returns None rather than a count; over a
fetched catalog listing of N songs with pairwise distinct slugs of
which M already have TokenEntries, and whose media and uploads succeed,
it performs exactly N minus M media fetches and N minus M uploads,
skipping already-present slugs. -/
theorem c5_bulk_ingestion_counts (net : Network) (fuel : Nat)
    (st : TokenStore) (songs : List SongData) (ev0 : List NetEvent)
    (hfetch : fetch_all_songs_from_api net fuel = (songs, ev0))
    (hne : songs.isEmpty = false)
    (hwf : ∀ s ∈ songs, wellFormedSong s = true)
    (hnd : (songs.map songSlug).Nodup)
    (hmedia : ∀ s ∈ songs, (net.media (songFileUrl s)).isSome = true)
    (hupl : ∀ r, (net.sendAudio r).isSome = true) :
    uploadValue (upload_songs net fuel st) = some none
    ∧ uploadMediaCount (upload_songs net fuel st)
      = some (songs.length
          - (songs.filter (fun s => dictContains st.storage (songSlug s))).length)
    ∧ uploadUploadCount (upload_songs net fuel st)
      = some (songs.length
          - (songs.filter (fun s => dictContains st.storage (songSlug s))).length) := by
  obtain ⟨st', ev, hloop, hcm, hcu⟩ := uploadLoop_counts net st hupl songs st
    hwf hnd hmedia (fun s _ => rfl)
  have hrun : upload_songs net fuel st = Except.ok (none, st', ev0 ++ ev) := by
    unfold upload_songs
    rw [hfetch]
    simp [hne, hloop]
  have hev0m : countMediaCalls ev0 = 0 := by
    have := (fetchAllPages_counts net fuel
      (some (apiBaseUrl ++ "?page_size=1000"))).1
    rw [show fetchAllPages net fuel (some (apiBaseUrl ++ "?page_size=1000"))
        = fetch_all_songs_from_api net fuel from rfl, hfetch] at this
    exact this
  have hev0u : countUploadCalls ev0 = 0 := by
    have := (fetchAllPages_counts net fuel
      (some (apiBaseUrl ++ "?page_size=1000"))).2
    rw [show fetchAllPages net fuel (some (apiBaseUrl ++ "?page_size=1000"))
        = fetch_all_songs_from_api net fuel from rfl, hfetch] at this
    exact this
  refine ⟨?_, ?_, ?_⟩
  · rw [hrun]; rfl
  · rw [hrun]
    show some (countMediaCalls (ev0 ++ ev)) = _
    rw [countMedia_append, hev0m, hcm, Nat.zero_add,
      length_filter_not songs (fun s => dictContains st.storage (songSlug s))]
  · rw [hrun]
    show some (countUploadCalls (ev0 ++ ev)) = _
    rw [countUpload_append, hev0u, hcu, Nat.zero_add,
      length_filter_not songs (fun s => dictContains st.storage (songSlug s))]

/-- Witness for C5 at a concrete input. -/
theorem c5_bulk_ingestion_counts_witness :
    uploadValue (upload_songs cNetA 2 emptyStore) = some none
    ∧ uploadMediaCount (upload_songs cNetA 2 emptyStore) = some 1
    ∧ uploadUploadCount (upload_songs cNetA 2 emptyStore) = some 1 :=
  c5_bulk_ingestion_counts cNetA 2 emptyStore [songA]
    [NetEvent.pageCall (apiBaseUrl ++ "?page_size=1000")]
    rfl rfl (by decide) (by decide) (by decide) (fun r => rfl)

/-- Claim C6: on a query-cache miss the service searches the catalog with page
size 5 (the first network event is that search), resolves each returned
song in order against the token store, silently drops the songs whose
resolution yields no token, answers with the ordered (slug, token,
caption) list described statelessly by specAssemble, and stores that
list in the query cache under the whitespace-trimmed query. -/
theorem c6_cache_miss_assembles (net : Network) (now : Nat) (rawQ : String)
    (st : TokenStore) (qc : QueryCache) (songs : List SongData)
    (hupl : ∀ r, (net.sendAudio r).isSome = true)
    (hmiss : cacheGetitem now qc (pyStrip rawQ) = none)
    (hsr : net.search (pyStrip rawQ) 5 = some songs)
    (hwf : ∀ s ∈ songs, wellFormedSong s = true)
    (hnd : (songs.map songSlug).Nodup) :
    runResults (inline_query net now rawQ st qc)
      = some (specAssemble net st songs)
    ∧ runCacheState (inline_query net now rawQ st qc)
      = some (cacheSet now qc (pyStrip rawQ) (specAssemble net st songs))
    ∧ (runEvents (inline_query net now rawQ st qc)).map List.head?
      = some (some (NetEvent.searchCall (pyStrip rawQ) 5)) := by
  obtain ⟨st', ev, hloop⟩ := inlineLoop_spec net st hupl songs st hwf hnd
    (fun s _ => rfl)
  have hrun : inline_query net now rawQ st qc
      = Except.ok (specAssemble net st songs, st',
          cacheSet now qc (pyStrip rawQ) (specAssemble net st songs),
          NetEvent.searchCall (pyStrip rawQ) 5 :: ev) := by
    simp only [inline_query, hmiss, fetch_songs_from_api, hsr, hloop]
    simp
  rw [hrun]
  exact ⟨rfl, rfl, rfl⟩

/-- Witness for C6 at a concrete input. -/
theorem c6_cache_miss_assembles_witness :
    runResults (inline_query cNetA 0 "blue" emptyStore [])
      = some (specAssemble cNetA emptyStore [songA])
    ∧ runCacheState (inline_query cNetA 0 "blue" emptyStore [])
      = some (cacheSet 0 [] (pyStrip "blue") (specAssemble cNetA emptyStore [songA]))
    ∧ (runEvents (inline_query cNetA 0 "blue" emptyStore [])).map List.head?
      = some (some (NetEvent.searchCall (pyStrip "blue") 5)) :=
  c6_cache_miss_assembles cNetA 0 "blue" emptyStore [] [songA]
    (fun r => rfl) rfl rfl (by decide) (by decide)

/-- Claim C7: a first inline call that misses the query cache and returns a
result list makes any second call on the same raw query, issued within
the cache TTL of the first, answer with the identical ordered result
list, an unchanged token store, and an empty network trace (no catalog
search and no resolver calls). -/
theorem c7_repeat_within_ttl_identical (net : Network) (now1 now2 : Nat)
    (rawQ : String) (st : TokenStore) (qc : QueryCache)
    (results : List InlineResult) (st1 : TokenStore) (qc1 : QueryCache)
    (ev1 : List NetEvent)
    (hmiss : cacheGetitem now1 qc (pyStrip rawQ) = none)
    (h1 : inline_query net now1 rawQ st qc = Except.ok (results, st1, qc1, ev1))
    (httl : now2 < now1 + cacheTtlVal) :
    runResults (inline_query net now2 rawQ st1 qc1) = some results
    ∧ runStore (inline_query net now2 rawQ st1 qc1) = some st1
    ∧ runEvents (inline_query net now2 rawQ st1 qc1) = some [] := by
  simp only [inline_query, hmiss] at h1
  split at h1
  · exact absurd h1 (by simp)
  rename_i r st0 ev0 hloop
  simp only [Except.ok.injEq, Prod.mk.injEq] at h1
  obtain ⟨hr, hst, hqc, hev⟩ := h1
  obtain ⟨qc2, hget⟩ := cacheGetitem_cacheSet_self now1 now2 qc (pyStrip rawQ)
    r httl
  rw [hqc] at hget
  have hrun2 : inline_query net now2 rawQ st1 qc1
      = Except.ok (r, st1, qc2, []) := by
    simp only [inline_query, hget]
  rw [hrun2, hr]
  exact ⟨rfl, rfl, rfl⟩

/-- Witness for C7 at a concrete input. -/
theorem c7_repeat_within_ttl_identical_witness :
    runResults (inline_query cNetA 1 "blue" stA
        (cacheSet 0 [] (pyStrip "blue") [resA])) = some [resA]
    ∧ runStore (inline_query cNetA 1 "blue" stA
        (cacheSet 0 [] (pyStrip "blue") [resA])) = some stA
    ∧ runEvents (inline_query cNetA 1 "blue" stA
        (cacheSet 0 [] (pyStrip "blue") [resA])) = some [] :=
  c7_repeat_within_ttl_identical cNetA 0 1 "blue" emptyStore [] [resA] stA
    (cacheSet 0 [] (pyStrip "blue") [resA])
    [NetEvent.searchCall (pyStrip "blue") 5,
     NetEvent.mediaCall "http://x/a.mp3", NetEvent.uploadCall]
    rfl rfl (by decide)

/-- Claim C9: write-once invariant of the token store under the sequential
model: an inline query run and a bulk ingestion run each preserve every
existing slug-to-token binding unchanged and keep slugs unique (at most
one TokenEntry per slug, and a written token is never changed). -/
theorem c9_write_once_invariant (net net2 : Network) (now : Nat)
    (rawQ : String) (st : TokenStore) (qc : QueryCache)
    (res : List InlineResult) (st' : TokenStore) (qc' : QueryCache)
    (ev : List NetEvent) (fuel : Nat) (st2 : TokenStore) (r : Option Nat)
    (st2' : TokenStore) (ev2 : List NetEvent) (k v k2 v2 : String)
    (h1 : inline_query net now rawQ st qc = Except.ok (res, st', qc', ev))
    (hk : dictLookup st.storage k = some v)
    (hn : (st.storage.map Prod.fst).Nodup)
    (h2 : upload_songs net2 fuel st2 = Except.ok (r, st2', ev2))
    (hk2 : dictLookup st2.storage k2 = some v2)
    (hn2 : (st2.storage.map Prod.fst).Nodup) :
    dictLookup st'.storage k = some v
    ∧ (st'.storage.map Prod.fst).Nodup
    ∧ dictLookup st2'.storage k2 = some v2
    ∧ (st2'.storage.map Prod.fst).Nodup := by
  have part1 : (∀ a b, dictLookup st.storage a = some b →
      dictLookup st'.storage a = some b)
      ∧ ((st.storage.map Prod.fst).Nodup → (st'.storage.map Prod.fst).Nodup) := by
    simp only [inline_query] at h1
    split at h1
    · rename_i results0 qc0 hget
      simp only [Except.ok.injEq, Prod.mk.injEq] at h1
      rw [← h1.2.1]
      exact ⟨fun a b hab => hab, fun hx => hx⟩
    · split at h1
      · exact absurd h1 (by simp)
      rename_i rs0 st0 ev0 hloop
      simp only [Except.ok.injEq, Prod.mk.injEq] at h1
      rw [← h1.2.1]
      exact inlineLoop_preserves net _ st rs0 st0 ev0 hloop
  have part2 : (∀ a b, dictLookup st2.storage a = some b →
      dictLookup st2'.storage a = some b)
      ∧ ((st2.storage.map Prod.fst).Nodup → (st2'.storage.map Prod.fst).Nodup) := by
    unfold upload_songs at h2
    split at h2
    · simp only [Except.ok.injEq, Prod.mk.injEq] at h2
      rw [← h2.2.1]
      exact ⟨fun a b hab => hab, fun hx => hx⟩
    · split at h2
      · exact absurd h2 (by simp)
      rename_i st0 ev0 hloop
      simp only [Except.ok.injEq, Prod.mk.injEq] at h2
      rw [← h2.2.1]
      exact uploadLoop_preserves net2 _ st2 st0 ev0 hloop
  exact ⟨part1.1 k v hk, part1.2 hn, part2.1 k2 v2 hk2, part2.2 hn2⟩

/-- Witness for C9 at a concrete input. -/
theorem c9_write_once_invariant_witness :
    dictLookup stZA.storage "z" = some "t0"
    ∧ (stZA.storage.map Prod.fst).Nodup
    ∧ dictLookup stZA.storage "z" = some "t0"
    ∧ (stZA.storage.map Prod.fst).Nodup :=
  c9_write_once_invariant cNetA cNetA 0 "blue" stZ [] [resA] stZA
    (cacheSet 0 [] (pyStrip "blue") [resA])
    [NetEvent.searchCall (pyStrip "blue") 5,
     NetEvent.mediaCall "http://x/a.mp3", NetEvent.uploadCall]
    2 stZ none stZA
    [NetEvent.pageCall (apiBaseUrl ++ "?page_size=1000"),
     NetEvent.mediaCall "http://x/a.mp3", NetEvent.uploadCall]
    "z" "t0" "z" "t0"
    rfl rfl (by decide) rfl rfl (by decide)

/-- Claim C10: a query whose search or resolution yields zero results caches
the empty list like any other result: the first call answers the empty
list and stores it under the trimmed query, and a repeat of the query
within the TTL answers the empty list again with an empty network trace
(no catalog search, no resolver calls). -/
theorem c10_empty_result_cached (net : Network) (now1 now2 : Nat)
    (rawQ : String) (st : TokenStore) (qc : QueryCache)
    (songs : List SongData)
    (hmiss : cacheGetitem now1 qc (pyStrip rawQ) = none)
    (hsr : net.search (pyStrip rawQ) 5 = some songs)
    (hall : ∀ s ∈ songs, wellFormedSong s = true
      ∧ dictLookup st.storage (songSlug s) = none
      ∧ net.media (songFileUrl s) = none)
    (httl : now2 < now1 + cacheTtlVal) :
    inline_query net now1 rawQ st qc = Except.ok ([], st,
      cacheSet now1 qc (pyStrip rawQ) [],
      NetEvent.searchCall (pyStrip rawQ) 5
        :: songs.map (fun s => NetEvent.mediaCall (songFileUrl s)))
    ∧ runResults (inline_query net now2 rawQ st
        (cacheSet now1 qc (pyStrip rawQ) [])) = some []
    ∧ runEvents (inline_query net now2 rawQ st
        (cacheSet now1 qc (pyStrip rawQ) [])) = some [] := by
  have hloop := inlineLoop_allFail net songs st hall
  have hrun1 : inline_query net now1 rawQ st qc = Except.ok ([], st,
      cacheSet now1 qc (pyStrip rawQ) [],
      NetEvent.searchCall (pyStrip rawQ) 5
        :: songs.map (fun s => NetEvent.mediaCall (songFileUrl s))) := by
    simp only [inline_query, hmiss, fetch_songs_from_api, hsr, hloop]
    simp
  obtain ⟨qc2, hget⟩ := cacheGetitem_cacheSet_self now1 now2 qc (pyStrip rawQ)
    [] httl
  have hrun2 : inline_query net now2 rawQ st
      (cacheSet now1 qc (pyStrip rawQ) [])
      = Except.ok ([], st, qc2, []) := by
    simp only [inline_query, hget]
  exact ⟨hrun1, by rw [hrun2]; rfl, by rw [hrun2]; rfl⟩

/-- Witness for C10 at a concrete input. -/
theorem c10_empty_result_cached_witness :
    inline_query cNetFail 0 "blue" emptyStore [] = Except.ok ([], emptyStore,
      cacheSet 0 [] (pyStrip "blue") [],
      NetEvent.searchCall (pyStrip "blue") 5
        :: [songA].map (fun s => NetEvent.mediaCall (songFileUrl s)))
    ∧ runResults (inline_query cNetFail 1 "blue" emptyStore
        (cacheSet 0 [] (pyStrip "blue") [])) = some []
    ∧ runEvents (inline_query cNetFail 1 "blue" emptyStore
        (cacheSet 0 [] (pyStrip "blue") [])) = some [] :=
  c10_empty_result_cached cNetFail 0 1 "blue" emptyStore [] [songA]
    rfl rfl (by decide) (by decide)
